import Mathlib

/-!
Verification of the lookup-and-speech orchestration subsystem of the
quickDictionary NVDA add-on, shallowly embedded from the Python sources
under `addon/globalPlugins/quickDictionary/`.

The embedding covers:
* the request cache (`shared.translateWithCaching`, an `lru_cache(maxsize=64)`
  wrapper, and `shared.hashForCache`);
* the orchestrator loop (`GlobalPlugin.translate` in `__init__.py`);
* the Yandex lookup task (`yandex/dictionary.ServiceTranslator.run`);
* the synthesizer profile machinery (`synthesizers.Profile` / `Profiles`)
  and the speech dispatch rollback (`shared.messageWithLangDetection` /
  `shared.restoreSynthIfSpeechBeenCanceled`);
* the service registry (`locator.Lookup`);
* credential masking (`service.Secret.encode` / `Secret.decode`).

External collaborators (the network, the speech host, zlib, UTF-8 codecs)
are modelled as explicit parameters carrying the contracts stated in their
library documentation; everything written in the repository itself is
translated operation by operation.  The file is organised as definitions
first, then the theorems about them.
-/

namespace QuickDictionary

/-! ### Lookup task results

`service.Translator.__init__` initialises `_html = ''`, `_plaintext = ''`,
`_error = False`; a completed task exposes these via the `html`,
`plaintext` and `error` properties.  A `TransResult` is the frozen state
of one completed task. -/

structure TransResult where
  langFrom : String
  langTo : String
  html : String
  plaintext : String
  error : Bool
  deriving DecidableEq, Repr

/-! ### Request cache (`shared.py`)

`translateWithCaching` is decorated with `functools.lru_cache(maxsize=64)`
and keyed on `(langFrom, langInto, text, hashForCache)`.  The memo is
modelled as a recency-ordered association list (most recent first): a hit
moves the entry to the front, a miss runs the factory (constructing and
starting one worker task), inserts at the front and truncates to the
capacity.  `cache_clear()` empties the whole memo. -/

abbrev CacheKey : Type := String × String × String × Int

structure LruCache where
  entries : List (CacheKey × TransResult)
  deriving DecidableEq

def cacheMaxSize : Nat := 64

def emptyCache : LruCache := ⟨[]⟩

/-- One call of the memoised function: `result` is what the caller gets,
`cache` the memo afterwards, and `started = true` exactly when the wrapped
body ran, i.e. a new translator thread was constructed and started. -/
structure CallResult where
  result : TransResult
  cache : LruCache
  started : Bool

/-- The translator body of `shared.translateWithCaching`: construct the
active service's translator for the key, `start()` it, poll and `join()`.
The network is abstracted by `oracle`, mapping a key to the completed
task's frozen result; each evaluation of `oracle` is one spawned task. -/
def translateWithCaching (oracle : CacheKey → TransResult) (c : LruCache)
    (k : CacheKey) : CallResult :=
  match c.entries.find? (fun e => decide (e.1 = k)) with
  | some e => ⟨e.2, ⟨(k, e.2) :: c.entries.filter (fun x => decide (x.1 ≠ k))⟩, false⟩
  | none =>
    let v := oracle k
    ⟨v, ⟨((k, v) :: c.entries).take cacheMaxSize⟩, true⟩

/-- `shared.hashForCache`: `hashes = active`, then `hashes += hash(value)`
for every option value of the active service's configuration section.
The Python `hash` of each option value is abstracted as an integer. -/
def hashForCache (active : Int) (optionHashes : List Int) : Int :=
  active + optionHashes.sum

/-- A cache is consistent with the oracle when every stored entry is the
result the oracle produces for its key; this is the invariant maintained
by `translateWithCaching` when the memo has not been populated from a
different configuration. -/
def CacheConsistent (oracle : CacheKey → TransResult) (c : LruCache) : Prop :=
  ∀ e ∈ c.entries, e.2 = oracle e.1

/-! ### Orchestrator (`GlobalPlugin.translate` in `__init__.py`)

```
pairs = [(self.source, self.target)]
if self.isAutoSwap:
	if langs.isAvailable(self.target, self.source):
		pairs.append((self.target, self.source))
for lFrom, lInto in pairs:
	translator = translateWithCaching(lFrom, lInto, text, hashForCache(active))
	if translator.error:
		translateWithCaching.cache_clear()	# reset cache when HTTP errors occur
	if translator.plaintext:
		break
else:
	if not translator.plaintext:
		ui.message(_("No results"))
		return
```
The `for ... else` ends with the last translator, whose plaintext is
necessarily empty when no `break` occurred, so falling through always
announces "No results" and returns without using a result. -/

/-- Candidate language pairs built by `GlobalPlugin.translate`;
`avail` is `langs.isAvailable` of the active service. -/
def translatePairs (source target : String) (autoSwap : Bool)
    (avail : String → String → Bool) : List (String × String) :=
  (source, target) ::
    (if autoSwap then (if avail target source then [(target, source)] else []) else [])

/-- Outcome of one orchestration together with the final memo state and
the keys that were actually looked up, in order. -/
structure LoopOut where
  used : Option TransResult
  cache : LruCache
  trace : List CacheKey
  deriving DecidableEq

/-- The `for lFrom, lInto in pairs:` loop of `GlobalPlugin.translate`. -/
def translateLoop (oracle : CacheKey → TransResult) (text : String) (h : Int) :
    LruCache → List (String × String) → LoopOut
  | c, [] => ⟨none, c, []⟩
  | c, (lFrom, lInto) :: rest =>
    let k : CacheKey := (lFrom, lInto, text, h)
    let r := translateWithCaching oracle c k
    let c2 := if r.result.error then emptyCache else r.cache
    if r.result.plaintext ≠ "" then ⟨some r.result, c2, [k]⟩
    else
      let out := translateLoop oracle text h c2 rest
      ⟨out.used, out.cache, k :: out.trace⟩

/-- `GlobalPlugin.translate`, from building the pair list to leaving the
lookup loop.  `used = none` is the "No results" exit (no result is used,
spoken or copied); `used = some t` means `t` is displayed/announced. -/
def translate (oracle : CacheKey → TransResult) (source target : String)
    (autoSwap : Bool) (avail : String → String → Bool) (text : String)
    (h : Int) (c : LruCache) : LoopOut :=
  translateLoop oracle text h c (translatePairs source target autoSwap avail)

/-- Specification-side winner: the first candidate pair whose oracle
result has non-empty plaintext (used to state that the orchestrator
tries pairs strictly in order and the first non-empty result wins). -/
def firstNonEmptyPair (oracle : CacheKey → TransResult) (text : String)
    (h : Int) (pairs : List (String × String)) : Option TransResult :=
  (pairs.find? (fun p => decide ((oracle (p.1, p.2, text, h)).plaintext ≠ ""))).map
    (fun p => oracle (p.1, p.2, text, h))

/-- Specification-side trace: the keys of the pairs tried, cut off after
the first pair with a non-empty result. -/
def keysTried (oracle : CacheKey → TransResult) (text : String) (h : Int) :
    List (String × String) → List CacheKey
  | [] => []
  | p :: rest =>
    (p.1, p.2, text, h) ::
      (if (oracle (p.1, p.2, text, h)).plaintext ≠ "" then []
       else keysTried oracle text h rest)

/-! ### Yandex lookup task (`yandex/dictionary.ServiceTranslator.run`)

```
servers = ['https://dictionary.yandex.net', 'https://info.alwaysdata.net']
if self.mirror:
	servers.reverse()
for server in servers:
	url = ...
	try:
		resp = urlopen(rq, timeout=8)
	except Exception as e:
		self._html = 'Error: %s [%s]' % (str(e), server)
		continue
	if resp.status!=200:
		self._html = 'Error: incorrect response code %d from the server %s' % (resp.status, server)
		continue
	parser = Parser(loads(resp.read().decode()))
	html = parser.to_html()
	self._html = htmlTemplate.format(body=html) if html else html
	self._plaintext = parser.to_text()
	return
```
One server attempt is abstracted as an `Attempt`: `urlopen` raising
(timeout / connection error) is `.failure msg`; otherwise the HTTP status
arrives with a payload.  Per the specification the response parser is an
external pure function, so a payload is either `malformed` (the `loads`
call raises — note this is *outside* the `try`) or already `parsed` into
the `(to_html, to_text)` pair.  `_error` is never assigned in `run`. -/

inductive Payload where
  | malformed
  | parsed (html plaintext : String)
  deriving DecidableEq, Repr

inductive Attempt where
  | failure (msg : String)
  | response (status : Nat) (payload : Payload)
  deriving DecidableEq, Repr

def directUrl : String := "https://dictionary.yandex.net"

def mirrorUrl : String := "https://info.alwaysdata.net"

/-- `shared.htmlTemplate.format(body=...)`: the fixed HTML wrapper around
a dictionary entry body (the stylesheet link embeds an install-dependent
absolute path; it is irrelevant to every claim and kept symbolic). -/
def htmlTemplateFormat (body : String) : String :=
  "&nbsp;<!DOCTYPE html><html><head>" ++
  "<meta http-equiv=\x22Content-Type\x22 content=\x22text/html; charset=utf-8\x22>" ++
  "<title></title><link rel=\x22stylesheet\x22 type=\x22text/css\x22 href=\x22style.css\x22>" ++
  "</head><body>" ++ body ++ "</body></html>"

/-- The mutable state a `Translator` thread carries: the three fields set
in `Translator.__init__` plus whether an exception escaped `run` (in which
case the thread dies with the fields as they were). -/
structure RunState where
  html : String
  plaintext : String
  error : Bool
  raised : Bool
  deriving DecidableEq, Repr

def initRunState : RunState := ⟨"", "", false, false⟩

/-- The server list of `ServiceTranslator.run`: primary then mirror,
reversed when the user's `mirror` preference is set. -/
def yandexServers (mirror : Bool) : List String :=
  if mirror then [mirrorUrl, directUrl] else [directUrl, mirrorUrl]

/-- The `for server in servers:` loop of `ServiceTranslator.run`;
`behavior server` is the outcome of the single attempt against that
server (8-second timeout included in `.failure`). -/
def runServers (behavior : String → Attempt) : RunState → List String → RunState
  | st, [] => st
  | st, server :: rest =>
    match behavior server with
    | .failure msg =>
      runServers behavior
        { st with html := "Error: " ++ msg ++ " [" ++ server ++ "]" } rest
    | .response status payload =>
      if status ≠ 200 then
        runServers behavior
          { st with html := "Error: incorrect response code " ++ toString status ++
              " from the server " ++ server } rest
      else
        match payload with
        | .malformed => { st with raised := true }
        | .parsed h t =>
          { st with
            html := if h ≠ "" then htmlTemplateFormat h else h,
            plaintext := t }

/-- `ServiceTranslator.run` for the whole task. -/
def serviceTranslatorRun (mirror : Bool) (behavior : String → Attempt) : RunState :=
  runServers behavior initRunState (yandexServers mirror)

/-- An attempt the `run` loop skips before moving to the next server:
`urlopen` raised, or the status was not 200. -/
def skippable : Attempt → Prop
  | .failure _ => True
  | .response status _ => status ≠ 200

instance : DecidablePred skippable := by
  intro a
  cases a with
  | failure msg => exact isTrue trivial
  | response status payload => exact inferInstanceAs (Decidable (status ≠ 200))

/-- The first server of the list whose attempt is not skipped, with its
attempt. -/
def firstDecisive (behavior : String → Attempt) :
    List String → Option (String × Attempt)
  | [] => none
  | server :: rest =>
    if skippable (behavior server) then firstDecisive behavior rest
    else some (server, behavior server)

/-! ### Synthesizer profiles (`synthesizers.py`)

The live speech host state visible to this module: the name of the active
synthesizer (`speech.getSynth().name`), the per-synthesizer configuration
sections (`config.conf.profiles[0]['speech'][name]`, an opaque key/value
dict), and which synthesizer drivers `speech.setSynth` can actually load.
Configuration sections are association lists; a missing key raises
`KeyError` in Python and is `none` here. -/

abbrev Settings := List (String × String)

structure SynthState where
  active : String
  configs : List (String × Settings)
  drivers : List String
  deriving DecidableEq, Repr

/-- Reading `config.conf.profiles[0]['speech'][name]`; `none` models the
`KeyError` for a missing section. -/
def lookupConf (cfgs : List (String × Settings)) (n : String) : Option Settings :=
  (cfgs.find? (fun e => decide (e.1 = n))).map (·.2)

/-- `section.clear(); section.update(conf)` on the section named `n`:
replace its contents wholesale, leaving the other sections alone. -/
def setConf (cfgs : List (String × Settings)) (n : String) (v : Settings) :
    List (String × Settings) :=
  cfgs.map (fun e => if e.1 = n then (n, v) else e)

/-- `synthesizers.Profile`: `_name`, `_conf`, `_lang`, `_status` exactly as
initialised by `Profile.__init__`. -/
structure Profile where
  name : String
  conf : Settings
  lang : String
  status : Bool
  deriving DecidableEq, Repr

/-- `Profile()` with its default arguments. -/
def Profile.empty : Profile := ⟨"", [], "", false⟩

/-- `Profile.set`: replace the synthesizer's config section with the
snapshot, call `speech.setSynth(name)` and record its status.  A missing
section raises `KeyError`, which the method catches, leaving every field
but `_status` and the whole live state untouched and returning `False`.
When the section exists but `setSynth` fails, the config change stays (a
"partial change") and the active engine is unchanged. -/
def Profile.set (p : Profile) (s : SynthState) : Bool × Profile × SynthState :=
  match lookupConf s.configs p.name with
  | none => (false, { p with status := false }, s)
  | some _ =>
    let ok := s.drivers.contains p.name
    (ok, { p with status := ok },
      { s with
        configs := setConf s.configs p.name p.conf,
        active := if ok then p.name else s.active })

/-- `Profile.update`: snapshot the live engine (`speech.getSynth().name`
and its full settings section) into the profile; `_lang` is kept
(`self._lang = self._lang or ''`).  `none` models the `KeyError` when the
active engine has no config section. -/
def Profile.update (p : Profile) (s : SynthState) : Option Profile :=
  (lookupConf s.configs s.active).map
    (fun cf => { p with name := s.active, conf := cf })

/-- The slot dictionary `Profiles._profs` (only integer slots are relevant
to iteration; the pickled `version` key never passes the `isinstance(slot,
int)` filter) plus the two anonymous profiles `_default` and `_previous`. -/
structure Profiles where
  profs : List (Nat × Profile)
  defaultProf : Profile
  previous : Profile
  deriving DecidableEq, Repr

/-- Dictionary read `self._profs.get(id)`. -/
def lookupSlot (profs : List (Nat × Profile)) (id : Nat) : Option Profile :=
  (profs.find? (fun e => decide (e.1 = id))).map (·.2)

/-- Dictionary write `self._profs[id] = p`: keys are unique, so replace in
place when present, append when absent. -/
def putSlot : List (Nat × Profile) → Nat → Profile → List (Nat × Profile)
  | [], id, p => [(id, p)]
  | e :: rest, id, p =>
    if e.1 = id then (id, p) :: rest else e :: putSlot rest id p

/-- `Profiles.__getitem__`: return the stored profile, creating and
storing an empty `Profile()` when the slot is vacant. -/
def Profiles.getItem (ps : Profiles) (id : Nat) : Profile × Profiles :=
  match lookupSlot ps.profs id with
  | some p => (p, ps)
  | none => (Profile.empty, { ps with profs := putSlot ps.profs id Profile.empty })

/-- `Profiles.remove` (`self._profs.pop(id)`): drop the binding for the
slot (on the key-unique dictionary this is exactly erasing that key). -/
def Profiles.removeSlot (ps : Profiles) (id : Nat) : Profiles :=
  { ps with profs := ps.profs.filter (fun e => decide (e.1 ≠ id)) }

/-- The sort order of `Profiles.__iter__` / `Profiles.save`:
`sorted(self._profs, key=lambda s: str(s))` compares decimal strings. -/
def slotOrder (a b : Nat × Profile) : Prop := toString a.1 ≤ toString b.1

instance : DecidableRel slotOrder := fun a b =>
  inferInstanceAs (Decidable (toString a.1 ≤ toString b.1))

/-- `Profiles.__iter__`: slots in string order, skipping unnamed
profiles. -/
def Profiles.iterate (ps : Profiles) : List (Nat × Profile) :=
  (List.insertionSort slotOrder ps.profs).filter (fun e => decide (e.2.name ≠ ""))

/-- `Profiles.getCurrent`: `Profile().update()`. -/
def Profiles.getCurrent (s : SynthState) : Option Profile :=
  Profile.update Profile.empty s

/-- `Profiles.capture` is how the add-on saves a slot
(`profiles[self._slot].update()` in `__init__.py` / `settings.py`):
fetch-or-create the slot's profile object and refresh it from the live
engine in place. -/
def Profiles.capture (ps : Profiles) (id : Nat) (s : SynthState) : Option Profiles :=
  let g := ps.getItem id
  (Profile.update g.1 s).map
    (fun p2 => { g.2 with profs := putSlot g.2.profs id p2 })

/-- `profiles[slot].set()`: apply the stored snapshot, tracking the
in-place `_status` mutation of the stored object. -/
def Profiles.applySlot (ps : Profiles) (id : Nat) (s : SynthState) :
    Bool × Profiles × SynthState :=
  let g := ps.getItem id
  let r := Profile.set g.1 s
  (r.1, { g.2 with profs := putSlot g.2.profs id r.2.1 }, r.2.2)

/-- `Profiles.rememberCurrent` with no argument: `self._previous =
Profile().update()`. -/
def Profiles.rememberCurrent (ps : Profiles) (s : SynthState) : Option Profiles :=
  (Profiles.getCurrent s).map (fun p => { ps with previous := p })

/-- `Profiles.restorePrevious`: `self._previous.set()` (the stored object
is mutated in place, so `_previous` picks up the new `_status`). -/
def Profiles.restorePrevious (ps : Profiles) (s : SynthState) :
    Bool × Profiles × SynthState :=
  let r := Profile.set ps.previous s
  (r.1, { ps with previous := r.2.1 }, r.2.2)

/-! ### Speech dispatch (`shared.py`)

`messageWithLangDetection` looks for a profile bound to the utterance's
language among the iterated (named) profiles; with the `switchsynth`
option on and such a profile found it calls `profiles.rememberCurrent()`
and `profile.set()` before enqueueing the text, and enqueues a
`CallbackCommand` that starts `restoreSynthIfSpeechBeenCanceled` on its
own thread.  That watcher snapshots the now-current engine, blocks until
the host raises `speech.beenCanceled` (speech finished or cancelled),
then runs `profiles.restorePrevious()` and `profiles.rememberCurrent(
previous)`.  The embedding serialises this: the swap step, then the
effect of the watcher at the moment the host signals. -/

/-- `next(filter(lambda x: x.lang==msg['lang'], (p for s,p in profiles)), None)`. -/
def findProfileForLang (ps : Profiles) (lang : String) : Option Profile :=
  ((ps.iterate).map (·.2)).find? (fun p => decide (p.lang = lang))

/-- The synthesizer-swapping prefix of `messageWithLangDetection`; the
`Bool` records whether a swap was performed (and hence whether the
rollback watcher was enqueued).  `none` models the uncaught `KeyError`
when the live engine has no config section to snapshot. -/
def speakWithSwap (switchSynth : Bool) (lang : String) (ps : Profiles)
    (s : SynthState) : Option (Profiles × SynthState × Bool) :=
  match (if switchSynth then findProfileForLang ps lang else none) with
  | none => some (ps, s, false)
  | some p =>
    (Profiles.rememberCurrent ps s).map
      (fun ps1 => (ps1, (Profile.set p s).2.2, true))

/-- `restoreSynthIfSpeechBeenCanceled`, evaluated when
`speech.beenCanceled` becomes true: `previous = profiles.getCurrent()`;
wait; `profiles.restorePrevious(); profiles.rememberCurrent(previous)`. -/
def restoreSynthIfSpeechBeenCanceled (ps : Profiles) (s : SynthState) :
    Option (Profiles × SynthState) :=
  (Profiles.getCurrent s).map
    (fun previousSnap =>
      let r := Profiles.restorePrevious ps s
      ({ r.2.1 with previous := previousSnap }, r.2.2))

/-- One speak request followed by the host's "speech finished or
cancelled" signal: the watcher only runs when a swap occurred. -/
def speakThenSignal (switchSynth : Bool) (lang : String) (ps : Profiles)
    (s : SynthState) : Option (Profiles × SynthState) :=
  match speakWithSwap switchSynth lang ps s with
  | none => none
  | some (ps1, s1, swapped) =>
    if swapped then restoreSynthIfSpeechBeenCanceled ps1 s1 else some (ps1, s1)

/-! ### Service registry (`locator.py`)

`Lookup._lookup` maps a service type to the list of registered singleton
instances; all claims concern one service type (`DictionaryService`), so
the registry state is that list.  Each instance carries its user-assigned
sort key `id` (re-assigned by `lookup_all`) and its identity. -/

structure ServiceInst where
  id : Int
  name : String
  deriving DecidableEq, Repr

/-- The order `sorted(servs, key=lambda srv: srv.id)` sorts by. -/
def serviceOrder (a b : ServiceInst) : Prop := a.id ≤ b.id

instance : DecidableRel serviceOrder := fun a b =>
  inferInstanceAs (Decidable (a.id ≤ b.id))

instance : IsTotal ServiceInst serviceOrder := ⟨fun a b => le_total a.id b.id⟩

instance : IsTrans ServiceInst serviceOrder :=
  ⟨fun _ _ _ hab hbc => le_trans hab hbc⟩

/-- `Lookup.lookup_all`: sort the registered instances by `id` (Python's
`sorted` is stable), then renumber `servs[i].id = i` and return the
list. -/
def lookup_all (regs : List ServiceInst) : List ServiceInst :=
  ((List.insertionSort serviceOrder regs).enum).map
    (fun e => { e.2 with id := (e.1 : Int) })

/-- `Lookup.lookup`: `self.lookup_all(service)[0]`, with the `IndexError`
for an empty list caught and turned into `None`. -/
def lookupFirst (regs : List ServiceInst) : Option ServiceInst :=
  (lookup_all regs).head?

/-! ### Credential masking (`service.Secret`)

`encode` is `binascii.hexlify(zlib.compress(cred.encode('utf-8'),
level=9)).decode()` and `decode` is
`zlib.decompress(binascii.unhexlify(cred.encode('utf-8'))).decode()`,
each wrapped in `try: ... except Exception: return ''`.  The hex codec
(`binascii`) is implemented concretely; `zlib` and the UTF-8 string codec
are external libraries, modelled as parameters carrying their documented
round-trip contracts, with exceptions as `none`. -/

abbrev Byte := Fin 256

/-- The lowercase hex digit for a nibble, by code point: `0-9` are 48-57
and `a-f` are 97-102. -/
def hexDigitChar (d : Fin 16) : Char :=
  if d.val < 10 then Char.ofNat (48 + d.val) else Char.ofNat (87 + d.val)

/-- The value of one hex digit, by code point; `binascii.unhexlify`
accepts both cases, anything else raises `binascii.Error`. -/
def hexVal (c : Char) : Option (Fin 16) :=
  if h1 : 48 ≤ c.toNat ∧ c.toNat ≤ 57 then some ⟨c.toNat - 48, by omega⟩
  else if h2 : 97 ≤ c.toNat ∧ c.toNat ≤ 102 then some ⟨c.toNat - 97 + 10, by omega⟩
  else if h3 : 65 ≤ c.toNat ∧ c.toNat ≤ 70 then some ⟨c.toNat - 65 + 10, by omega⟩
  else none

def hexByte (b : Byte) : List Char :=
  [hexDigitChar ⟨b.val / 16, by have := b.isLt; omega⟩,
   hexDigitChar ⟨b.val % 16, by omega⟩]

/-- `binascii.hexlify`: two lowercase hex digits per byte. -/
def hexlifyBytes (bs : List Byte) : List Char :=
  (bs.map hexByte).flatten

/-- `binascii.unhexlify`: parse pairs of hex digits; an odd-length input
or a non-hex character raises (`none`). -/
def unhexlifyChars : List Char → Option (List Byte)
  | [] => some []
  | c1 :: c2 :: rest =>
    match hexVal c1, hexVal c2, unhexlifyChars rest with
    | some hi, some lo, some bs =>
      some (⟨hi.val * 16 + lo.val, by have := hi.isLt; have := lo.isLt; omega⟩ :: bs)
    | _, _, _ => none
  | [_] => none

/-- `zlib.compress(..., level=9)` / `zlib.decompress`, with zlib's
documented contract that decompression inverts compression and that
invalid streams raise `zlib.error` (`none`). -/
structure ZlibModel where
  compress : List Byte → List Byte
  decompress : List Byte → Option (List Byte)
  decompress_compress : ∀ bs, decompress (compress bs) = some bs

/-- `str.encode('utf-8')` / `bytes.decode()`, with the codec contract
that decoding inverts encoding and that invalid byte sequences raise
`UnicodeDecodeError` (`none`). -/
structure Utf8Model where
  enc : String → List Byte
  dec : List Byte → Option String
  dec_enc : ∀ s, dec (enc s) = some s

/-- `Secret.encode` (nothing in the pipeline raises for a `str` input, so
the surrounding `try` never fires). -/
def Secret.encode (z : ZlibModel) (u : Utf8Model) (cred : String) : String :=
  String.mk (hexlifyBytes (z.compress (u.enc cred)))

/-- The decoding pipeline of `Secret.decode` on the character sequence of
the masked string: every failing stage lands in the `except` branch and
yields the empty string. -/
def Secret.decodeAux (z : ZlibModel) (u : Utf8Model) (cs : List Char) : String :=
  match unhexlifyChars cs with
  | none => ""
  | some bs =>
    match z.decompress bs with
    | none => ""
    | some bs2 =>
      match u.dec bs2 with
      | none => ""
      | some s => s

/-- `Secret.decode`: `try: return zlib.decompress(binascii.unhexlify(
cred.encode('utf-8'))).decode() except Exception: return ''`. -/
def Secret.decode (z : ZlibModel) (u : Utf8Model) (cred : String) : String :=
  Secret.decodeAux z u cred.data

/-! ### Concrete instances used to exercise the theorems -/

/-- The trivial model satisfying zlib's contract (used to instantiate the
abstract codec parameters on concrete inputs). -/
def idZlib : ZlibModel := ⟨fun bs => bs, some, fun _ => rfl⟩

/-- An injective byte encoding of a character: its code point in four
base-256 digits, most significant first. -/
def charBytes (c : Char) : List Byte :=
  [⟨c.toNat / 2 ^ 24 % 256, by omega⟩, ⟨c.toNat / 2 ^ 16 % 256, by omega⟩,
   ⟨c.toNat / 2 ^ 8 % 256, by omega⟩, ⟨c.toNat % 256, by omega⟩]

def charsEnc (s : String) : List Byte := (s.data.map charBytes).flatten

/-- Inverse of `charBytes` on byte streams, validating code points. -/
def bytesDec : List Byte → Option (List Char)
  | [] => some []
  | b0 :: b1 :: b2 :: b3 :: rest =>
    if _h : Nat.isValidChar (b0.val * 2 ^ 24 + b1.val * 2 ^ 16 + b2.val * 2 ^ 8 + b3.val) then
      (bytesDec rest).map
        (fun cs => Char.ofNat (b0.val * 2 ^ 24 + b1.val * 2 ^ 16 + b2.val * 2 ^ 8 + b3.val) :: cs)
    else none
  | _ => none

/-- A concrete model satisfying the string-codec contract. -/
def codecWitness : Utf8Model where
  enc := charsEnc
  dec := fun bs => (bytesDec bs).map (fun cs => String.mk cs)
  dec_enc := by
    intro s
    have step : ∀ cs : List Char, bytesDec ((cs.map charBytes).flatten) = some cs := by
      intro cs
      induction cs with
      | nil => rfl
      | cons c rest ih =>
        have hv : Nat.isValidChar c.toNat := c.valid
        have hv2 : c.toNat < 0xd800 ∨ (0xdfff < c.toNat ∧ c.toNat < 0x110000) := hv
        have hlt : c.toNat < 2 ^ 32 := by rcases hv2 with h | ⟨_, h⟩ <;> omega
        have hrec : c.toNat / 2 ^ 24 % 256 * 2 ^ 24 + c.toNat / 2 ^ 16 % 256 * 2 ^ 16 +
            c.toNat / 2 ^ 8 % 256 * 2 ^ 8 + c.toNat % 256 = c.toNat := by omega
        simp only [List.map_cons, List.flatten_cons, charBytes, List.cons_append,
          List.nil_append, bytesDec, hrec, hv, dif_pos, Option.map_some]
        simp [Char.ofNat_toNat, ih]
    have hmk : String.mk s.data = s := by cases s; rfl
    simp [charsEnc, step s.data, hmk]

/-- A behavior where every server attempt raises (for example times
out). -/
def allFailBehavior : String → Attempt := fun _ => .failure "timed out"

/-- Primary server replies 200 with a payload `json.loads` cannot parse;
the mirror would succeed. -/
def malformedFirstBehavior : String → Attempt := fun s =>
  if s = directUrl then Attempt.response 200 Payload.malformed
  else Attempt.response 200 (Payload.parsed "x" "y")

/-- Primary server times out, mirror succeeds. -/
def fallbackBehavior : String → Attempt := fun s =>
  if s = directUrl then Attempt.failure "timed out"
  else Attempt.response 200 (Payload.parsed "<h1>apple</h1>" "- apple")

/-- An oracle whose tasks complete in the failed state but with an error
text in place of the dictionary body. -/
def errorOracle : CacheKey → TransResult :=
  fun k => ⟨k.1, k.2.1, "Error: boom", "Error: boom", true⟩

/-- An oracle with an empty forward answer and a non-empty reversed
answer. -/
def swapOracle : CacheKey → TransResult := fun k =>
  if k.1 = "en" then ⟨k.1, k.2.1, "", "", false⟩
  else ⟨k.1, k.2.1, "<b>Kartoffel</b>", "Kartoffel", false⟩

/-- A live speech state with two installed synthesizers. -/
def sampleState : SynthState :=
  ⟨"espeak", [("espeak", [("rate", "50")]), ("sapi5", [("voice", "anna")])],
   ["espeak", "sapi5"]⟩

/-- One saved profile bound to German, on slot 1. -/
def sampleProfiles : Profiles :=
  ⟨[(1, ⟨"sapi5", [("voice", "anna")], "de", false⟩)], Profile.empty, Profile.empty⟩

/-- A profile naming an engine with no configuration section. -/
def ghostProfile : Profile := ⟨"ghost", [("rate", "10")], "fr", false⟩

/-- A registry with two descriptors whose sort keys are out of order and
not dense. -/
def sampleRegs : List ServiceInst := [⟨5, "lexicala"⟩, ⟨2, "yandex"⟩]

/-- An oracle whose answers do not matter (empty results). -/
def constOracle : CacheKey → TransResult := fun _ => ⟨"", "", "", "", false⟩

/-- Thread the cache through a sequence of cached-lookup calls. -/
def manyCalls (oracle : CacheKey → TransResult) (c : LruCache)
    (keys : List CacheKey) : LruCache :=
  keys.foldl (fun c2 k => (translateWithCaching oracle c2 k).cache) c

/-- 64 pairwise distinct request keys, all different from `appleKey`. -/
def evictKeys : List CacheKey :=
  (List.range 64).map (fun i => ("x", "y", toString i, 0))

def appleKey : CacheKey := ("en", "ru", "apple", 0)

/-! ## Theorems -/

/-! ### Request cache lemmas -/

theorem translateWithCaching_head (oracle : CacheKey → TransResult)
    (c : LruCache) (k : CacheKey) :
    ∃ rest, (translateWithCaching oracle c k).cache.entries =
      (k, (translateWithCaching oracle c k).result) :: rest := by
  unfold translateWithCaching
  cases h : c.entries.find? (fun e => decide (e.1 = k)) with
  | none => exact ⟨_, rfl⟩
  | some e => exact ⟨_, rfl⟩

theorem translateWithCaching_hit_of_head (oracle : CacheKey → TransResult)
    (k : CacheKey) (v : TransResult) (rest : List (CacheKey × TransResult)) :
    (translateWithCaching oracle ⟨(k, v) :: rest⟩ k).started = false ∧
      (translateWithCaching oracle ⟨(k, v) :: rest⟩ k).result = v := by
  unfold translateWithCaching
  simp [List.find?]

theorem translateWithCaching_miss_empty (oracle : CacheKey → TransResult)
    (k : CacheKey) : (translateWithCaching oracle emptyCache k).started = true ∧
      (translateWithCaching oracle emptyCache k).result = oracle k := by
  constructor <;> rfl

set_option maxRecDepth 100000 in
/-- C3 counterexample: the memo is a bounded LRU (`maxsize=64`), so the
claim's universal "at most once per identical arguments" fails — after a
cached-lookup call for `appleKey`, 64 cached-lookup calls with distinct
other keys evict that entry, and a second call with the identical
arguments misses and constructs and starts a fresh lookup task. -/
theorem translateWithCaching_evicted_task_restarts :
    (translateWithCaching constOracle
      (manyCalls constOracle
        (translateWithCaching constOracle emptyCache appleKey).cache evictKeys)
      appleKey).started = true := by
  decide

/-- C3 (amended): for two cached-lookup calls with identical arguments
(source and target languages, text, and the `hashForCache`
service-configuration fingerprint) with no intervening lookups or cache
clear, the lookup task runs at most once: the second call is a cache hit
that spawns no new worker and returns the very result the first call
produced. -/
theorem translateWithCaching_second_call_memoized
    (oracle : CacheKey → TransResult) (c : LruCache)
    (langFrom langInto text : String) (active : Int) (optionHashes : List Int) :
    ((translateWithCaching oracle
        (translateWithCaching oracle c
          (langFrom, langInto, text, hashForCache active optionHashes)).cache
        (langFrom, langInto, text, hashForCache active optionHashes)).started = false) ∧
    ((translateWithCaching oracle
        (translateWithCaching oracle c
          (langFrom, langInto, text, hashForCache active optionHashes)).cache
        (langFrom, langInto, text, hashForCache active optionHashes)).result =
      (translateWithCaching oracle c
        (langFrom, langInto, text, hashForCache active optionHashes)).result) := by
  obtain ⟨rest, hrest⟩ :=
    translateWithCaching_head oracle c (langFrom, langInto, text, hashForCache active optionHashes)
  have h2 : (translateWithCaching oracle c
      (langFrom, langInto, text, hashForCache active optionHashes)).cache =
      ⟨(( langFrom, langInto, text, hashForCache active optionHashes),
        (translateWithCaching oracle c
          (langFrom, langInto, text, hashForCache active optionHashes)).result) :: rest⟩ := by
    cases hcache : (translateWithCaching oracle c
      (langFrom, langInto, text, hashForCache active optionHashes)).cache
    simp_all
  rw [h2]
  exact translateWithCaching_hit_of_head oracle _ _ rest

/-! ### Orchestrator lemmas -/

theorem translateLoop_used_error_clears (oracle : CacheKey → TransResult)
    (text : String) (h : Int) :
    ∀ (pairs : List (String × String)) (c : LruCache) (t : TransResult),
      (translateLoop oracle text h c pairs).used = some t → t.error = true →
      (translateLoop oracle text h c pairs).cache = emptyCache := by
  intro pairs
  induction pairs with
  | nil =>
    intro c t hu
    simp [translateLoop] at hu
  | cons p rest ih =>
    intro c t hu herr
    obtain ⟨lFrom, lInto⟩ := p
    by_cases hp :
        (translateWithCaching oracle c (lFrom, lInto, text, h)).result.plaintext ≠ ""
    · simp only [translateLoop, if_pos hp] at hu ⊢
      cases hu
      simp [herr]
    · simp only [translateLoop, if_neg hp] at hu ⊢
      exact ih _ t hu herr

/-- C2: whenever the orchestrated lookup ends up using a result whose
`error` flag is set, the cache-clearing branch of `GlobalPlugin.translate`
has emptied the whole request cache before that result is used, so the
next cached-lookup call for any key whatsoever misses and recomputes. -/
theorem translate_error_result_clears_cache (oracle : CacheKey → TransResult)
    (source target : String) (autoSwap : Bool) (avail : String → String → Bool)
    (text : String) (h : Int) (c : LruCache) (t : TransResult)
    (hu : (translate oracle source target autoSwap avail text h c).used = some t)
    (herr : t.error = true) :
    (translate oracle source target autoSwap avail text h c).cache = emptyCache ∧
    ∀ k, (translateWithCaching oracle
      (translate oracle source target autoSwap avail text h c).cache k).started = true := by
  have hc : (translate oracle source target autoSwap avail text h c).cache = emptyCache :=
    translateLoop_used_error_clears oracle text h
      (translatePairs source target autoSwap avail) c t hu herr
  refine ⟨hc, fun k => ?_⟩
  rw [hc]
  rfl

theorem cacheConsistent_empty (oracle : CacheKey → TransResult) :
    CacheConsistent oracle emptyCache := by
  simp [CacheConsistent, emptyCache]

theorem translateWithCaching_result_of_consistent (oracle : CacheKey → TransResult)
    (c : LruCache) (k : CacheKey) (hc : CacheConsistent oracle c) :
    (translateWithCaching oracle c k).result = oracle k := by
  unfold translateWithCaching
  cases hfind : c.entries.find? (fun e => decide (e.1 = k)) with
  | none => rfl
  | some e =>
    have hmem : e ∈ c.entries := List.mem_of_find?_eq_some hfind
    have hpred := List.find?_some hfind
    have hk : e.1 = k := of_decide_eq_true hpred
    simp only
    rw [hc e hmem, hk]

theorem cacheConsistent_after (oracle : CacheKey → TransResult) (c : LruCache)
    (k : CacheKey) (hc : CacheConsistent oracle c) :
    CacheConsistent oracle (translateWithCaching oracle c k).cache := by
  unfold translateWithCaching
  cases hfind : c.entries.find? (fun e => decide (e.1 = k)) with
  | none =>
    intro e he
    simp only at he
    rcases List.mem_cons.mp (List.take_subset _ _ he) with rfl | hmem
    · rfl
    · exact hc e hmem
  | some e0 =>
    intro e he
    simp only at he
    have hmem0 : e0 ∈ c.entries := List.mem_of_find?_eq_some hfind
    have hpred0 := List.find?_some hfind
    have hk0 : e0.1 = k := of_decide_eq_true hpred0
    rcases List.mem_cons.mp he with rfl | hmem
    · have := hc e0 hmem0
      simp only
      rw [this, hk0]
    · exact hc e (List.mem_of_mem_filter hmem)

theorem translateLoop_spec (oracle : CacheKey → TransResult) (text : String) (h : Int) :
    ∀ (pairs : List (String × String)) (c : LruCache),
      CacheConsistent oracle c →
      (translateLoop oracle text h c pairs).used = firstNonEmptyPair oracle text h pairs ∧
      (translateLoop oracle text h c pairs).trace = keysTried oracle text h pairs := by
  intro pairs
  induction pairs with
  | nil => intro c _; exact ⟨rfl, rfl⟩
  | cons p rest ih =>
    intro c hc
    obtain ⟨lFrom, lInto⟩ := p
    have hres := translateWithCaching_result_of_consistent oracle c (lFrom, lInto, text, h) hc
    have hcons := cacheConsistent_after oracle c (lFrom, lInto, text, h) hc
    by_cases hp : (oracle (lFrom, lInto, text, h)).plaintext ≠ ""
    · have hp2 : (translateWithCaching oracle c (lFrom, lInto, text, h)).result.plaintext ≠ "" := by
        rw [hres]; exact hp
      constructor
      · simp only [translateLoop, if_pos hp2, firstNonEmptyPair]
        rw [List.find?_cons_of_pos _ (by simpa using hp)]
        simp [hres]
      · simp only [translateLoop, if_pos hp2, keysTried, if_pos hp]
    · have hp2 : ¬ (translateWithCaching oracle c (lFrom, lInto, text, h)).result.plaintext ≠ "" := by
        rw [hres]; exact hp
      have hcons2 : CacheConsistent oracle
          (if (translateWithCaching oracle c (lFrom, lInto, text, h)).result.error
            then emptyCache else (translateWithCaching oracle c (lFrom, lInto, text, h)).cache) := by
        split
        · exact cacheConsistent_empty oracle
        · exact hcons
      obtain ⟨h1, h2⟩ := ih _ hcons2
      constructor
      · simp only [translateLoop, if_neg hp2, firstNonEmptyPair]
        rw [List.find?_cons_of_neg _ (by simpa using hp)]
        simpa [firstNonEmptyPair] using h1
      · simp only [translateLoop, if_neg hp2, keysTried, if_neg hp]
        simpa using h2

/-- C4: the candidate pair list is exactly `[(source, target)]` with
`(target, source)` appended iff auto-swap is on and the reversed pair is
available; the pairs are tried strictly in that order with the first
non-empty plaintext winning; and with auto-swap on but the reversed pair
unavailable exactly one pair is looked up and the outcome is identical to
a run without auto-swap (no error is signalled for the skipped reversed
attempt). -/
theorem translate_candidate_pair_policy (oracle : CacheKey → TransResult)
    (source target : String) (autoSwap : Bool) (avail : String → String → Bool)
    (text : String) (h : Int) (c : LruCache) (hc : CacheConsistent oracle c) :
    (translatePairs source target autoSwap avail =
      (source, target) ::
        (if autoSwap = true ∧ avail target source = true then [(target, source)] else [])) ∧
    (translate oracle source target autoSwap avail text h c).used =
      firstNonEmptyPair oracle text h (translatePairs source target autoSwap avail) ∧
    (translate oracle source target autoSwap avail text h c).trace =
      keysTried oracle text h (translatePairs source target autoSwap avail) ∧
    (autoSwap = true → avail target source = false →
      (translate oracle source target autoSwap avail text h c).trace =
        [(source, target, text, h)] ∧
      translate oracle source target autoSwap avail text h c =
        translate oracle source target false avail text h c) := by
  obtain ⟨hused, htrace⟩ :=
    translateLoop_spec oracle text h (translatePairs source target autoSwap avail) c hc
  refine ⟨?_, hused, htrace, ?_⟩
  · unfold translatePairs
    cases autoSwap <;> cases hav : avail target source <;> simp [hav]
  · intro hswap havail
    subst hswap
    have hpairs : translatePairs source target true avail = [(source, target)] := by
      simp [translatePairs, havail]
    have hpairs2 : translatePairs source target false avail = [(source, target)] := by
      simp [translatePairs]
    constructor
    · unfold translate
      rw [htrace, hpairs]
      simp only [keysTried]
      split <;> rfl
    · unfold translate
      rw [hpairs, hpairs2]

theorem translate_candidate_pair_policy_witness :
    (translatePairs "en" "de" true (fun _ _ => false) =
      ("en", "de") ::
        (if true = true ∧ (fun _ _ => false : String → String → Bool) "de" "en" = true
          then [("de", "en")] else [])) ∧
    (translate swapOracle "en" "de" true (fun _ _ => false) "potato" 0 emptyCache).used =
      firstNonEmptyPair swapOracle "potato" 0 (translatePairs "en" "de" true (fun _ _ => false)) ∧
    (translate swapOracle "en" "de" true (fun _ _ => false) "potato" 0 emptyCache).trace =
      keysTried swapOracle "potato" 0 (translatePairs "en" "de" true (fun _ _ => false)) ∧
    (true = true → (fun _ _ => false : String → String → Bool) "de" "en" = false →
      (translate swapOracle "en" "de" true (fun _ _ => false) "potato" 0 emptyCache).trace =
        [("en", "de", "potato", 0)] ∧
      translate swapOracle "en" "de" true (fun _ _ => false) "potato" 0 emptyCache =
        translate swapOracle "en" "de" false (fun _ _ => false) "potato" 0 emptyCache) :=
  translate_candidate_pair_policy swapOracle "en" "de" true (fun _ _ => false) "potato" 0
    emptyCache (by simp [CacheConsistent, emptyCache])

/-! ### Yandex lookup task lemmas -/

theorem runServers_error_pristine (behavior : String → Attempt) :
    ∀ (servers : List String) (st : RunState),
      (runServers behavior st servers).error = st.error := by
  intro servers
  induction servers with
  | nil => intro st; rfl
  | cons server rest ih =>
    intro st
    cases hb : behavior server with
    | failure msg =>
      simp only [runServers, hb]
      exact ih _
    | response status payload =>
      simp only [runServers, hb]
      by_cases hst : status ≠ 200
      · rw [if_pos hst]; exact ih _
      · rw [if_neg hst]
        cases payload <;> rfl

theorem runServers_firstDecisive_parsed (behavior : String → Attempt) :
    ∀ (servers : List String) (st : RunState) (srv ht tt : String),
      firstDecisive behavior servers = some (srv, .response 200 (.parsed ht tt)) →
      runServers behavior st servers =
        ⟨if ht ≠ "" then htmlTemplateFormat ht else ht, tt, st.error, st.raised⟩ := by
  intro servers
  induction servers with
  | nil => intro st srv ht tt hfd; simp [firstDecisive] at hfd
  | cons server rest ih =>
    intro st srv ht tt hfd
    rw [firstDecisive] at hfd
    cases hb : behavior server with
    | failure msg =>
      rw [hb] at hfd
      have hskip : skippable (Attempt.failure msg) := trivial
      rw [if_pos hskip] at hfd
      simp only [runServers, hb]
      exact ih _ srv ht tt hfd
    | response status payload =>
      rw [hb] at hfd
      simp only [runServers, hb]
      by_cases hst : status ≠ 200
      · have hskip : skippable (Attempt.response status payload) := hst
        rw [if_pos hskip] at hfd
        rw [if_pos hst]
        exact ih _ srv ht tt hfd
      · have hnskip : ¬ skippable (Attempt.response status payload) := hst
        rw [if_neg hnskip] at hfd
        rw [if_neg hst]
        have h200 : status = 200 := by omega
        subst h200
        cases payload with
        | malformed => simp at hfd
        | parsed h2 t2 =>
          simp only [Option.some.injEq, Prod.mk.injEq, Attempt.response.injEq,
            Payload.parsed.injEq] at hfd
          obtain ⟨-, -, rfl, rfl⟩ := hfd
          rfl

theorem runServers_firstDecisive_malformed (behavior : String → Attempt) :
    ∀ (servers : List String) (st : RunState) (srv : String),
      firstDecisive behavior servers = some (srv, .response 200 .malformed) →
      ∃ msg, runServers behavior st servers = ⟨msg, st.plaintext, st.error, true⟩ := by
  intro servers
  induction servers with
  | nil => intro st srv hfd; simp [firstDecisive] at hfd
  | cons server rest ih =>
    intro st srv hfd
    rw [firstDecisive] at hfd
    cases hb : behavior server with
    | failure msg =>
      rw [hb] at hfd
      have hskip : skippable (Attempt.failure msg) := trivial
      rw [if_pos hskip] at hfd
      simp only [runServers, hb]
      exact ih _ srv hfd
    | response status payload =>
      rw [hb] at hfd
      simp only [runServers, hb]
      by_cases hst : status ≠ 200
      · have hskip : skippable (Attempt.response status payload) := hst
        rw [if_pos hskip] at hfd
        rw [if_pos hst]
        exact ih _ srv hfd
      · have hnskip : ¬ skippable (Attempt.response status payload) := hst
        rw [if_neg hnskip] at hfd
        rw [if_neg hst]
        have h200 : status = 200 := by omega
        subst h200
        cases payload with
        | malformed => exact ⟨st.html, rfl⟩
        | parsed h2 t2 => simp at hfd

theorem runServers_firstDecisive_none (behavior : String → Attempt) :
    ∀ (servers : List String) (st : RunState),
      firstDecisive behavior servers = none →
      (runServers behavior st servers).plaintext = st.plaintext ∧
      (runServers behavior st servers).raised = st.raised := by
  intro servers
  induction servers with
  | nil => intro st _; exact ⟨rfl, rfl⟩
  | cons server rest ih =>
    intro st hfd
    rw [firstDecisive] at hfd
    cases hb : behavior server with
    | failure msg =>
      rw [hb] at hfd
      have hskip : skippable (Attempt.failure msg) := trivial
      rw [if_pos hskip] at hfd
      simp only [runServers, hb]
      exact ih _ hfd
    | response status payload =>
      rw [hb] at hfd
      simp only [runServers, hb]
      by_cases hst : status ≠ 200
      · have hskip : skippable (Attempt.response status payload) := hst
        rw [if_pos hskip] at hfd
        rw [if_pos hst]
        exact ih _ hfd
      · have hnskip : ¬ skippable (Attempt.response status payload) := hst
        rw [if_neg hnskip] at hfd
        simp at hfd

/-- C1 (code-bug evidence): when every server attempt fails, `run`
completes normally (the loop ends, nothing is raised) yet the task's
`error` flag is still `False`, because nothing in
`ServiceTranslator.run` — or anywhere else — ever assigns `_error`;
in fact the flag is `False` after every run whatsoever. -/
theorem serviceTranslatorRun_error_flag_never_set :
    (serviceTranslatorRun false allFailBehavior).raised = false ∧
    (serviceTranslatorRun false allFailBehavior).error = false ∧
    ∀ (mirror : Bool) (behavior : String → Attempt),
      (serviceTranslatorRun mirror behavior).error = false := by
  refine ⟨by decide, by decide, fun mirror behavior => ?_⟩
  exact runServers_error_pristine behavior (yandexServers mirror) initRunState

/-- C5 (amended): the candidate servers are attempted in order — primary
then mirror, reversed when the mirror preference is set; an attempt that
times out, raises a connection error or returns a non-200 status is
skipped and the next server tried; the first 200 response determines the
task's html and plaintext when its payload parses; but a 200 response
whose payload is malformed is *not* skipped: `loads` raises outside the
`try`, aborting the loop with no further server tried. -/
theorem serviceTranslatorRun_fallback_policy (mirror : Bool)
    (behavior : String → Attempt) :
    (yandexServers mirror =
      if mirror then [mirrorUrl, directUrl] else [directUrl, mirrorUrl]) ∧
    (∀ srv ht tt,
      firstDecisive behavior (yandexServers mirror) =
        some (srv, .response 200 (.parsed ht tt)) →
      serviceTranslatorRun mirror behavior =
        ⟨if ht ≠ "" then htmlTemplateFormat ht else ht, tt, false, false⟩) ∧
    (∀ srv,
      firstDecisive behavior (yandexServers mirror) =
        some (srv, .response 200 .malformed) →
      (serviceTranslatorRun mirror behavior).raised = true ∧
      (serviceTranslatorRun mirror behavior).plaintext = "") ∧
    (firstDecisive behavior (yandexServers mirror) = none →
      (serviceTranslatorRun mirror behavior).raised = false ∧
      (serviceTranslatorRun mirror behavior).plaintext = "") := by
  refine ⟨rfl, ?_, ?_, ?_⟩
  · intro srv ht tt hfd
    exact runServers_firstDecisive_parsed behavior (yandexServers mirror) initRunState
      srv ht tt hfd
  · intro srv hfd
    obtain ⟨msg, heq⟩ := runServers_firstDecisive_malformed behavior (yandexServers mirror)
      initRunState srv hfd
    unfold serviceTranslatorRun
    rw [heq]
    exact ⟨rfl, rfl⟩
  · intro hfd
    obtain ⟨h1, h2⟩ := runServers_firstDecisive_none behavior (yandexServers mirror)
      initRunState hfd
    exact ⟨h2, h1⟩

theorem serviceTranslatorRun_fallback_policy_witness :
    serviceTranslatorRun false fallbackBehavior =
      ⟨if "<h1>apple</h1>" ≠ "" then htmlTemplateFormat "<h1>apple</h1>"
        else "<h1>apple</h1>", "- apple", false, false⟩ :=
  (serviceTranslatorRun_fallback_policy false fallbackBehavior).2.1
    mirrorUrl "<h1>apple</h1>" "- apple" (by decide)

/-- C5 counterexample: the primary server answers 200 with a payload the
parser cannot read while the mirror would answer correctly; the claim
says the malformed payload is skipped and the mirror's parsed output
("y") wins, but `run` aborts with an exception and an empty result, never
contacting the mirror. -/
theorem serviceTranslatorRun_malformed_not_skipped :
    (serviceTranslatorRun false malformedFirstBehavior).raised = true ∧
    (serviceTranslatorRun false malformedFirstBehavior).plaintext ≠ "y" := by
  decide

/-! ### Synthesizer profile lemmas -/

theorem lookupConf_cons_self (key : String) (val : Settings)
    (rest : List (String × Settings)) :
    lookupConf ((key, val) :: rest) key = some val := by
  simp [lookupConf]

theorem lookupConf_cons_of_ne (key : String) (val : Settings)
    (rest : List (String × Settings)) (n : String) (h : key ≠ n) :
    lookupConf ((key, val) :: rest) n = lookupConf rest n := by
  simp only [lookupConf]
  rw [List.find?_cons_of_neg _ (by simp [h])]

theorem setConf_cons_hit (key : String) (val : Settings)
    (rest : List (String × Settings)) (v : Settings) :
    setConf ((key, val) :: rest) key v = (key, v) :: setConf rest key v := by
  simp [setConf]

theorem setConf_cons_miss (key : String) (val : Settings)
    (rest : List (String × Settings)) (n : String) (v : Settings) (h : key ≠ n) :
    setConf ((key, val) :: rest) n v = (key, val) :: setConf rest n v := by
  simp [setConf, h]

theorem lookupConf_setConf_self (cfgs : List (String × Settings)) (n : String)
    (v w : Settings) (hfound : lookupConf cfgs n = some w) :
    lookupConf (setConf cfgs n v) n = some v := by
  induction cfgs with
  | nil => simp [lookupConf] at hfound
  | cons e rest ih =>
    obtain ⟨key, val⟩ := e
    by_cases hkey : key = n
    · subst hkey
      rw [setConf_cons_hit, lookupConf_cons_self]
    · rw [lookupConf_cons_of_ne key val rest n hkey] at hfound
      rw [setConf_cons_miss key val rest n v hkey,
        lookupConf_cons_of_ne key val (setConf rest n v) n hkey]
      exact ih hfound

theorem lookupConf_setConf_other (cfgs : List (String × Settings)) (n : String)
    (v : Settings) (m : String) (hm : m ≠ n) :
    lookupConf (setConf cfgs n v) m = lookupConf cfgs m := by
  induction cfgs with
  | nil => rfl
  | cons e rest ih =>
    obtain ⟨key, val⟩ := e
    by_cases hkey : key = n
    · subst hkey
      rw [setConf_cons_hit, lookupConf_cons_of_ne key v (setConf rest key v) m
        (fun hc => hm hc.symm), lookupConf_cons_of_ne key val rest m (fun hc => hm hc.symm)]
      exact ih
    · rw [setConf_cons_miss key val rest n v hkey]
      by_cases hkm : key = m
      · subst hkm
        rw [lookupConf_cons_self, lookupConf_cons_self]
      · rw [lookupConf_cons_of_ne key val (setConf rest n v) m hkm,
          lookupConf_cons_of_ne key val rest m hkm]
        exact ih

theorem lookupConf_setConf_none (cfgs : List (String × Settings)) (n : String)
    (v : Settings) (hnone : lookupConf cfgs n = none) :
    lookupConf (setConf cfgs n v) n = none := by
  induction cfgs with
  | nil => rfl
  | cons e rest ih =>
    obtain ⟨key, val⟩ := e
    by_cases hkey : key = n
    · subst hkey
      rw [lookupConf_cons_self] at hnone
      exact absurd hnone (by simp)
    · rw [lookupConf_cons_of_ne key val rest n hkey] at hnone
      rw [setConf_cons_miss key val rest n v hkey,
        lookupConf_cons_of_ne key val (setConf rest n v) n hkey]
      exact ih hnone

theorem Profile.set_snapshot_unchanged (p : Profile) (s : SynthState) :
    (Profile.set p s).2.1.name = p.name ∧ (Profile.set p s).2.1.conf = p.conf ∧
    (Profile.set p s).2.1.lang = p.lang := by
  unfold Profile.set
  cases lookupConf s.configs p.name <;> exact ⟨rfl, rfl, rfl⟩

theorem Profile.set_drivers (p : Profile) (s : SynthState) :
    ((Profile.set p s).2.2).drivers = s.drivers := by
  unfold Profile.set
  cases lookupConf s.configs p.name <;> rfl

theorem lookupSlot_putSlot_self (profs : List (Nat × Profile)) (id : Nat)
    (p : Profile) : lookupSlot (putSlot profs id p) id = some p := by
  induction profs with
  | nil => simp [putSlot, lookupSlot]
  | cons e rest ih =>
    by_cases he : e.1 = id
    · simp only [putSlot, if_pos he]
      simp [lookupSlot]
    · simp only [putSlot, if_neg he]
      simp only [lookupSlot]
      rw [List.find?_cons_of_neg _ (by simp [he])]
      exact ih

/-- C8: applying a profile whose named engine has no section in the live
configuration returns `False` instead of raising (the `KeyError` is
caught), leaves the live state untouched, and leaves the stored snapshot
(engine name, settings, language tag) unchanged. -/
theorem profile_set_missing_engine (p : Profile) (s : SynthState)
    (hmissing : lookupConf s.configs p.name = none) :
    (Profile.set p s).1 = false ∧
    (Profile.set p s).2.2 = s ∧
    (Profile.set p s).2.1.name = p.name ∧
    (Profile.set p s).2.1.conf = p.conf ∧
    (Profile.set p s).2.1.lang = p.lang := by
  unfold Profile.set
  rw [hmissing]
  exact ⟨rfl, rfl, rfl, rfl, rfl⟩

theorem profile_set_missing_engine_witness :
    (Profile.set ghostProfile sampleState).1 = false ∧
    (Profile.set ghostProfile sampleState).2.2 = sampleState ∧
    (Profile.set ghostProfile sampleState).2.1.name = ghostProfile.name ∧
    (Profile.set ghostProfile sampleState).2.1.conf = ghostProfile.conf ∧
    (Profile.set ghostProfile sampleState).2.1.lang = ghostProfile.lang :=
  profile_set_missing_engine ghostProfile sampleState (by decide)

theorem Profile.capture_apply (p0 : Profile) (s : SynthState) (cf : Settings)
    (hconf : lookupConf s.configs s.active = some cf)
    (hdrv : s.drivers.contains s.active = true) :
    Profile.update p0 s = some { p0 with name := s.active, conf := cf } ∧
    Profile.set { p0 with name := s.active, conf := cf } s =
      (true, { p0 with name := s.active, conf := cf, status := true },
        { s with configs := setConf s.configs s.active cf }) := by
  constructor
  · unfold Profile.update
    rw [hconf]
    rfl
  · unfold Profile.set
    dsimp only
    rw [hconf, hdrv]
    rfl

theorem Profiles.getItem_of_found (ps : Profiles) (id : Nat) (p : Profile)
    (h : lookupSlot ps.profs id = some p) : Profiles.getItem ps id = (p, ps) := by
  unfold Profiles.getItem
  rw [h]

theorem Profiles.capture_eq (ps : Profiles) (id : Nat) (s : SynthState) (p2 : Profile)
    (h : Profile.update (ps.getItem id).1 s = some p2) :
    Profiles.capture ps id s =
      some { (ps.getItem id).2 with profs := putSlot (ps.getItem id).2.profs id p2 } := by
  unfold Profiles.capture
  dsimp only
  rw [h]
  rfl

theorem Profiles.applySlot_eq (ps : Profiles) (id : Nat) (s : SynthState) (p : Profile)
    (h : lookupSlot ps.profs id = some p) :
    Profiles.applySlot ps id s =
      ((Profile.set p s).1,
       { ps with profs := putSlot ps.profs id (Profile.set p s).2.1 },
       (Profile.set p s).2.2) := by
  unfold Profiles.applySlot
  dsimp only
  rw [Profiles.getItem_of_found ps id p h]

/-- C7: capturing the live engine into a slot and then applying that slot
succeeds, restores the engine name and every captured setting key/value
exactly, and only flips the stored snapshot's `_status` — `Profile.set`
never alters name, settings or language tag of any profile; and after
removing a slot, iteration never yields that slot. -/
theorem profiles_capture_apply_roundtrip (ps : Profiles) (id : Nat) (s : SynthState)
    (cf : Settings) (hconf : lookupConf s.configs s.active = some cf)
    (hdrv : s.drivers.contains s.active = true) :
    (∃ ps1, Profiles.capture ps id s = some ps1 ∧
      lookupSlot ps1.profs id = some
        ⟨s.active, cf, (ps.getItem id).1.lang, (ps.getItem id).1.status⟩ ∧
      (Profiles.applySlot ps1 id s).1 = true ∧
      (Profiles.applySlot ps1 id s).2.2.active = s.active ∧
      lookupConf (Profiles.applySlot ps1 id s).2.2.configs s.active = some cf ∧
      lookupSlot (Profiles.applySlot ps1 id s).2.1.profs id = some
        ⟨s.active, cf, (ps.getItem id).1.lang, true⟩) ∧
    (∀ (q : Profile) (s2 : SynthState),
      (Profile.set q s2).2.1.name = q.name ∧ (Profile.set q s2).2.1.conf = q.conf ∧
      (Profile.set q s2).2.1.lang = q.lang) ∧
    id ∉ ((Profiles.removeSlot ps id).iterate.map (fun e => e.1)) := by
  obtain ⟨hupd, hset⟩ := Profile.capture_apply (ps.getItem id).1 s cf hconf hdrv
  have hcap := Profiles.capture_eq ps id s _ hupd
  have hslot : lookupSlot (putSlot (ps.getItem id).2.profs id
      { (ps.getItem id).1 with name := s.active, conf := cf }) id =
      some { (ps.getItem id).1 with name := s.active, conf := cf } :=
    lookupSlot_putSlot_self _ _ _
  have happ := Profiles.applySlot_eq
    ({ (ps.getItem id).2 with profs := putSlot (ps.getItem id).2.profs id ({ (ps.getItem id).1 with name := s.active, conf := cf }) })
    id s ({ (ps.getItem id).1 with name := s.active, conf := cf }) hslot
  refine ⟨⟨_, hcap, hslot, ?_, ?_, ?_, ?_⟩,
    fun q s2 => Profile.set_snapshot_unchanged q s2, ?_⟩
  · rw [happ, hset]
  · rw [happ, hset]
  · rw [happ, hset]
    exact lookupConf_setConf_self s.configs s.active cf cf hconf
  · rw [happ, hset]
    exact lookupSlot_putSlot_self _ _ _
  · intro hmem
    obtain ⟨e, he, heq⟩ := List.mem_map.mp hmem
    have h1 : e ∈ List.insertionSort slotOrder (Profiles.removeSlot ps id).profs :=
      List.mem_of_mem_filter he
    have h2 : e ∈ (Profiles.removeSlot ps id).profs :=
      (List.perm_insertionSort slotOrder _).subset h1
    have h3 := List.of_mem_filter h2
    exact absurd heq (of_decide_eq_true h3)

theorem profiles_capture_apply_roundtrip_witness :
    (∃ ps1, Profiles.capture sampleProfiles 2 sampleState = some ps1 ∧
      lookupSlot ps1.profs 2 = some
        ⟨sampleState.active, [("rate", "50")],
          (sampleProfiles.getItem 2).1.lang, (sampleProfiles.getItem 2).1.status⟩ ∧
      (Profiles.applySlot ps1 2 sampleState).1 = true ∧
      (Profiles.applySlot ps1 2 sampleState).2.2.active = sampleState.active ∧
      lookupConf (Profiles.applySlot ps1 2 sampleState).2.2.configs sampleState.active =
        some [("rate", "50")] ∧
      lookupSlot (Profiles.applySlot ps1 2 sampleState).2.1.profs 2 = some
        ⟨sampleState.active, [("rate", "50")], (sampleProfiles.getItem 2).1.lang, true⟩) ∧
    (∀ (q : Profile) (s2 : SynthState),
      (Profile.set q s2).2.1.name = q.name ∧ (Profile.set q s2).2.1.conf = q.conf ∧
      (Profile.set q s2).2.1.lang = q.lang) ∧
    2 ∉ ((Profiles.removeSlot sampleProfiles 2).iterate.map (fun e => e.1)) :=
  profiles_capture_apply_roundtrip sampleProfiles 2 sampleState [("rate", "50")]
    (by decide) (by decide)

theorem Profile.set_preserves_lookup (p : Profile) (s : SynthState) (m : String)
    (w : Settings) (hm : lookupConf s.configs m = some w) :
    ∃ w2, lookupConf ((Profile.set p s).2.2).configs m = some w2 := by
  unfold Profile.set
  cases hpc : lookupConf s.configs p.name with
  | none => exact ⟨w, hm⟩
  | some v =>
    dsimp only
    by_cases hmp : m = p.name
    · subst hmp
      exact ⟨p.conf, lookupConf_setConf_self s.configs p.name p.conf v hpc⟩
    · exact ⟨w, by rw [lookupConf_setConf_other s.configs p.name p.conf m hmp]; exact hm⟩

theorem Profile.set_active_lookup (p : Profile) (s : SynthState) (w : Settings)
    (hact : lookupConf s.configs s.active = some w) :
    ∃ w2, lookupConf ((Profile.set p s).2.2).configs ((Profile.set p s).2.2).active =
      some w2 := by
  unfold Profile.set
  cases hpc : lookupConf s.configs p.name with
  | none => exact ⟨w, hact⟩
  | some v =>
    dsimp only
    by_cases hok : s.drivers.contains p.name = true
    · rw [if_pos hok]
      exact ⟨p.conf, lookupConf_setConf_self s.configs p.name p.conf v hpc⟩
    · rw [if_neg hok]
      by_cases hmp : s.active = p.name
      · exact ⟨p.conf, by rw [hmp]; exact lookupConf_setConf_self s.configs p.name p.conf v hpc⟩
      · exact ⟨w, by rw [lookupConf_setConf_other s.configs p.name p.conf s.active hmp]; exact hact⟩

theorem Profile.set_success_active (q : Profile) (st : SynthState) (v : Settings)
    (hq : lookupConf st.configs q.name = some v)
    (hd : st.drivers.contains q.name = true) :
    ((Profile.set q st).2.2).active = q.name := by
  unfold Profile.set
  rw [hq]
  dsimp only
  rw [if_pos hd]

/-- C6: with the language-switch option enabled and a profile bound to
the utterance's language, a speak request swaps the synthesizer; once the
host signals "speech finished or cancelled" the watcher restores the
previous synthesizer, so the active engine afterwards equals the engine
that was active immediately before the speak call. -/
theorem speak_rollback_restores_engine (lang : String) (ps : Profiles)
    (s : SynthState) (p : Profile) (cf : Settings)
    (hfind : findProfileForLang ps lang = some p)
    (hconf : lookupConf s.configs s.active = some cf)
    (hdrv : s.drivers.contains s.active = true) :
    ∃ ps2 s2, speakThenSignal true lang ps s = some (ps2, s2) ∧
      s2.active = s.active := by
  have hcur : Profiles.getCurrent s =
      some ⟨s.active, cf, "", false⟩ := by
    unfold Profiles.getCurrent Profile.update
    rw [hconf]
    rfl
  have hrem : Profiles.rememberCurrent ps s =
      some { ps with previous := ⟨s.active, cf, "", false⟩ } := by
    unfold Profiles.rememberCurrent
    rw [hcur]
    rfl
  have hswap : speakWithSwap true lang ps s =
      some ({ ps with previous := ⟨s.active, cf, "", false⟩ },
        (Profile.set p s).2.2, true) := by
    unfold speakWithSwap
    rw [if_pos rfl, hfind]
    dsimp only
    rw [hrem]
    rfl
  obtain ⟨w2, hw2⟩ := Profile.set_active_lookup p s cf hconf
  have hcur1 : Profiles.getCurrent ((Profile.set p s).2.2) =
      some ⟨((Profile.set p s).2.2).active, w2, "", false⟩ := by
    unfold Profiles.getCurrent Profile.update
    rw [hw2]
    rfl
  obtain ⟨v2, hv2⟩ := Profile.set_preserves_lookup p s s.active cf hconf
  have hd2 : ((Profile.set p s).2.2).drivers.contains s.active = true := by
    rw [Profile.set_drivers]
    exact hdrv
  have hrestore : ((Profile.set (⟨s.active, cf, "", false⟩ : Profile)
      ((Profile.set p s).2.2)).2.2).active = s.active :=
    Profile.set_success_active ⟨s.active, cf, "", false⟩ ((Profile.set p s).2.2) v2 hv2 hd2
  have hfinal : speakThenSignal true lang ps s =
      some ({ ps with previous := ⟨((Profile.set p s).2.2).active, w2, "", false⟩ },
        (Profile.set (⟨s.active, cf, "", false⟩ : Profile) ((Profile.set p s).2.2)).2.2) := by
    unfold speakThenSignal
    rw [hswap]
    dsimp only
    unfold restoreSynthIfSpeechBeenCanceled
    rw [hcur1]
    rfl
  exact ⟨_, _, hfinal, hrestore⟩

theorem speak_rollback_restores_engine_witness :
    ∃ ps2 s2, speakThenSignal true "de" sampleProfiles sampleState = some (ps2, s2) ∧
      s2.active = sampleState.active :=
  speak_rollback_restores_engine "de" sampleProfiles sampleState
    ⟨"sapi5", [("voice", "anna")], "de", false⟩ [("rate", "50")]
    (by decide) (by decide) (by decide)

/-! ### Service registry lemmas -/

theorem lookup_all_length (regs : List ServiceInst) :
    (lookup_all regs).length = regs.length := by
  unfold lookup_all
  rw [List.length_map, List.enum_length,
    (List.perm_insertionSort serviceOrder regs).length_eq]

/-- C9: `lookup_all` returns the registered descriptors sorted by their
sort key, with every public index renumbered to its 0-based position
(dense `0..n-1`); `lookup` returns the head of that list when anything is
registered and `None` when the registry holds no instance of the type. -/
theorem lookup_all_sorted_dense (regs : List ServiceInst) :
    ((lookup_all regs).map (fun e => e.id) =
      (List.range regs.length).map Int.ofNat) ∧
    (∃ l, l.Perm regs ∧ List.Sorted serviceOrder l ∧
      lookup_all regs = (l.enum).map (fun e => { e.2 with id := (e.1 : Int) })) ∧
    (regs = [] → lookupFirst regs = none) ∧
    (regs ≠ [] → ∃ x, lookupFirst regs = some x ∧
      (lookup_all regs).head? = some x) := by
  refine ⟨?_, ⟨List.insertionSort serviceOrder regs,
      List.perm_insertionSort serviceOrder regs,
      List.sorted_insertionSort serviceOrder regs, rfl⟩, ?_, ?_⟩
  · unfold lookup_all
    rw [List.map_map]
    have hcomp : ((fun e => e.id) ∘
        (fun (e : Nat × ServiceInst) => { e.2 with id := (e.1 : Int) })) =
        (Int.ofNat ∘ Prod.fst) := by
      funext e
      rfl
    rw [hcomp, ← List.map_map, List.enum_map_fst,
      (List.perm_insertionSort serviceOrder regs).length_eq]
  · intro h
    subst h
    rfl
  · intro hne
    have hlen : (lookup_all regs).length = regs.length := lookup_all_length regs
    have hpos : 0 < (lookup_all regs).length := by
      rw [hlen]
      exact List.length_pos.mpr hne
    obtain ⟨x, xs, hx⟩ := List.exists_cons_of_ne_nil (List.length_pos.mp hpos)
    exact ⟨x, by unfold lookupFirst; rw [hx]; rfl, by rw [hx]; rfl⟩

theorem lookup_all_sorted_dense_witness :
    ((lookup_all sampleRegs).map (fun e => e.id) =
      (List.range sampleRegs.length).map Int.ofNat) ∧
    ∃ x, lookupFirst sampleRegs = some x ∧ (lookup_all sampleRegs).head? = some x :=
  ⟨(lookup_all_sorted_dense sampleRegs).1,
   (lookup_all_sorted_dense sampleRegs).2.2.2 (by decide)⟩

/-! ### Credential masking lemmas -/

theorem unhexlify_hexlify (bs : List Byte) :
    unhexlifyChars (hexlifyBytes bs) = some bs := by
  induction bs with
  | nil => rfl
  | cons b rest ih =>
    have hdigits : ∀ d : Fin 16, hexVal (hexDigitChar d) = some d := by decide
    simp only [hexlifyBytes, List.map_cons, List.flatten_cons, hexByte,
      List.cons_append, List.nil_append]
    simp only [unhexlifyChars, hdigits]
    have hflat : unhexlifyChars ((rest.map hexByte).flatten) = some rest := ih
    rw [hflat]
    have hval : b.val / 16 * 16 + b.val % 16 = b.val := by omega
    simp [Fin.ext_iff, hval]

/-- C10: credential masking round-trips — for every string,
`Secret.decode` inverts `Secret.encode`; and whenever any stage of the
unmasking pipeline rejects the input (not valid hex, or not a valid zlib
stream), `Secret.decode` returns the empty string instead of raising. -/
theorem secret_decode_encode (z : ZlibModel) (u : Utf8Model) :
    (∀ s, Secret.decode z u (Secret.encode z u s) = s) ∧
    (∀ c, unhexlifyChars c.data = none → Secret.decode z u c = "") ∧
    (∀ c bs, unhexlifyChars c.data = some bs → z.decompress bs = none →
      Secret.decode z u c = "") := by
  refine ⟨?_, ?_, ?_⟩
  · intro s
    show Secret.decodeAux z u (hexlifyBytes (z.compress (u.enc s))) = s
    unfold Secret.decodeAux
    rw [unhexlify_hexlify]
    simp only [z.decompress_compress, u.dec_enc]
  · intro c hnone
    unfold Secret.decode Secret.decodeAux
    rw [hnone]
  · intro c bs hsome hdec
    simp only [Secret.decode, Secret.decodeAux, hsome, hdec]

theorem secret_decode_encode_witness :
    Secret.decode idZlib codecWitness (Secret.encode idZlib codecWitness "key") =
      "key" ∧
    Secret.decode idZlib codecWitness "zz" = "" :=
  ⟨(secret_decode_encode idZlib codecWitness).1 "key",
   (secret_decode_encode idZlib codecWitness).2.1 "zz" (by decide)⟩

theorem translate_error_result_clears_cache_witness :
    (translate errorOracle "en" "ru" false (fun _ _ => false) "apple" 0 emptyCache).cache =
      emptyCache ∧
    ∀ k, (translateWithCaching errorOracle
      (translate errorOracle "en" "ru" false (fun _ _ => false) "apple" 0 emptyCache).cache
        k).started = true :=
  translate_error_result_clears_cache errorOracle "en" "ru" false (fun _ _ => false)
    "apple" 0 emptyCache ⟨"en", "ru", "Error: boom", "Error: boom", true⟩ (by decide) rfl

end QuickDictionary
